import Mathlib

/-!
Verification of the extensible-record codec implemented by the generated SDK
model classes `AssistantMessageTokens` and `EventMessageUpdated`
(`src/packages/sdk/python/src/opencode_ai/models/`).

The embedding models a Python `dict[str, Any]` as an insertion-ordered
association list of string keys and `Value`s, with the operations the source
uses: `dict(src)` (copy), `d.update(m)`, `d.pop(k)`, `d[k]`, `d[k] = v`,
`del d[k]`, `k in d`.  Fallible operations return `Option` / `Except`.
-/

set_option linter.unusedVariables false

/-- An untyped wire value: a number, a string, or an object-shaped map.
Numbers carry no arithmetic in this layer (they pass through conversion
unchanged), so the numeric carrier is `Int`. -/
inductive Value where
  | num : Int → Value
  | str : String → Value
  | vmap : List (String × Value) → Value
  deriving Repr

/-- A Python `dict[str, Any]`: insertion-ordered entries; dict-valued Python
expressions always have pairwise-distinct keys, which theorems assume as a
`keys.Nodup` hypothesis where it matters. -/
abbrev Dict := List (String × Value)

namespace Dict

/-- The keys of the dict, in insertion order. -/
def keys (d : Dict) : List String := d.map Prod.fst

/-- `d[k]` as a query: value of the first entry with key `k`. -/
def lookup (d : Dict) (k : String) : Option Value :=
  match d with
  | [] => none
  | (k', v) :: rest => if k' = k then some v else lookup rest k

/-- Python `k in d`. -/
def hasKey (d : Dict) (k : String) : Bool :=
  match d with
  | [] => false
  | (k', _) :: rest => k' = k || hasKey rest k

/-- Python `d[k] = v`: overwrite in place if the key is present (keeping its
position), otherwise append at the end. -/
def setItem (d : Dict) (k : String) (v : Value) : Dict :=
  match d with
  | [] => [(k, v)]
  | (k', v') :: rest => if k' = k then (k', v) :: rest else (k', v') :: setItem rest k v

/-- Python `d.update(m)`: apply `setItem` for each entry of `m` in order. -/
def update (d m : Dict) : Dict :=
  m.foldl (fun acc kv => acc.setItem kv.1 kv.2) d

/-- Python `d.pop(k)`: remove the entry with key `k` and return its value,
or fail (`KeyError`) when the key is absent. -/
def pop (d : Dict) (k : String) : Option (Value × Dict) :=
  match d with
  | [] => none
  | (k', v) :: rest =>
    if k' = k then some (v, rest)
    else match pop rest k with
      | none => none
      | some (v2, rest2) => some (v2, (k', v) :: rest2)

/-- Python `del d[k]`: fails (`KeyError`) when the key is absent. -/
def delItem (d : Dict) (k : String) : Option Dict :=
  (d.pop k).map Prod.snd

/-- Python `dict(src)`: a fresh dict with the same entries in the same
order. -/
def copy (d : Dict) : Dict :=
  match d with
  | [] => []
  | kv :: rest => kv :: copy rest

end Dict

/-- Python `v == s` for a wire value `v` and a string literal `s` (used by the
generated tag check `type_ != "message.updated"`): true exactly when `v` is
that string. -/
def Value.eqStr (v : Value) (s : String) : Bool :=
  match v with
  | .str s' => s' == s
  | _ => false

/-- The exceptions the generated `from_dict` bodies can raise:
`KeyError` from `d.pop`/`d[k]`/`del d[k]` (carrying the missing key),
`ValueError` from the literal-tag check, and `TypeError` when a value that
must be a nested map is not one. -/
inductive DErr where
  | keyError : String → DErr
  | valueError : String → DErr
  | typeError : DErr
  deriving Repr, DecidableEq

/-- Modelled from the spec: the class `AssistantMessageTokensCache` is not in
the excerpt; per the spec it is a nested Record of the same extensible-record
pattern (named fields plus an extension bag with verbatim unknown-key
preservation and the round-trip law).  It is modelled as the pattern
instantiated with its extension bag; its named-field list is unknown and
taken as empty. -/
structure AssistantMessageTokensCache where
  additional_properties : Dict

/-- Modelled from the spec: serialization of the nested record re-emits its
bag verbatim. -/
def AssistantMessageTokensCache.to_dict (c : AssistantMessageTokensCache) : Dict :=
  c.additional_properties

/-- Modelled from the spec: deserialization requires an object-shaped value
(Python `dict(src_dict)` raises `TypeError` otherwise) and assigns all
remaining keys of the copy to the extension bag verbatim. -/
def AssistantMessageTokensCache.from_dict (v : Value) : Except DErr AssistantMessageTokensCache :=
  match v with
  | .vmap d => .ok ⟨Dict.copy d⟩
  | _ => .error .typeError

/-- Modelled from the spec: the class `EventMessageUpdatedProperties` is not
in the excerpt; like the cache class it is modelled as the spec's
extensible-record pattern instantiated with its extension bag. -/
structure EventMessageUpdatedProperties where
  additional_properties : Dict

/-- Modelled from the spec: serialization of the nested record re-emits its
bag verbatim. -/
def EventMessageUpdatedProperties.to_dict (p : EventMessageUpdatedProperties) : Dict :=
  p.additional_properties

/-- Modelled from the spec: deserialization requires an object-shaped value
and assigns all remaining keys of the copy to the extension bag verbatim. -/
def EventMessageUpdatedProperties.from_dict (v : Value) : Except DErr EventMessageUpdatedProperties :=
  match v with
  | .vmap d => .ok ⟨Dict.copy d⟩
  | _ => .error .typeError

/-- `class AssistantMessageTokens` (assistant_message_tokens.py): named fields
`input_`, `output`, `reasoning`, `cache` plus the extension bag
`additional_properties`. -/
structure AssistantMessageTokens where
  input_ : Value
  output : Value
  reasoning : Value
  cache : AssistantMessageTokensCache
  additional_properties : Dict

namespace AssistantMessageTokens

/-- The attrs-generated constructor: `additional_properties` is `init=False,
factory=dict`, so direct construction always starts with an empty bag. -/
def construct (input_ output reasoning : Value) (cache : AssistantMessageTokensCache) :
    AssistantMessageTokens :=
  { input_ := input_, output := output, reasoning := reasoning, cache := cache,
    additional_properties := [] }

/-- `AssistantMessageTokens.to_dict` (lines 29-49): start from an empty dict,
`update` with the bag, then `update` with the named fields. -/
def to_dict (r : AssistantMessageTokens) : Dict :=
  let field_dict : Dict := []
  let field_dict := field_dict.update r.additional_properties
  let field_dict := field_dict.update
    [("input", r.input_), ("output", r.output), ("reasoning", r.reasoning),
     ("cache", .vmap r.cache.to_dict)]
  field_dict

/-- `AssistantMessageTokens.from_dict` (lines 51-73): copy the source map,
pop each named key in order (`KeyError` when absent), recursively
deserialize `cache`, construct, then assign the remaining copy to the bag. -/
def from_dict (src_dict : Dict) : Except DErr AssistantMessageTokens :=
  let d := Dict.copy src_dict
  match d.pop "input" with
  | none => .error (.keyError "input")
  | some (input_, d) =>
    match d.pop "output" with
    | none => .error (.keyError "output")
    | some (output, d) =>
      match d.pop "reasoning" with
      | none => .error (.keyError "reasoning")
      | some (reasoning, d) =>
        match d.pop "cache" with
        | none => .error (.keyError "cache")
        | some (cacheVal, d) =>
          match AssistantMessageTokensCache.from_dict cacheVal with
          | .error e => .error e
          | .ok cache =>
            .ok { construct input_ output reasoning cache with additional_properties := d }

/-- `from_dict` as a call: the same body, additionally returning the value of
the caller's map when the call returns.  Every mutation in the body targets
the local `d = dict(src_dict)`, so each exit returns `src_dict` itself. -/
def from_dictCall (src_dict : Dict) : Except DErr AssistantMessageTokens × Dict :=
  let d := Dict.copy src_dict
  match d.pop "input" with
  | none => (.error (.keyError "input"), src_dict)
  | some (input_, d) =>
    match d.pop "output" with
    | none => (.error (.keyError "output"), src_dict)
    | some (output, d) =>
      match d.pop "reasoning" with
      | none => (.error (.keyError "reasoning"), src_dict)
      | some (reasoning, d) =>
        match d.pop "cache" with
        | none => (.error (.keyError "cache"), src_dict)
        | some (cacheVal, d) =>
          match AssistantMessageTokensCache.from_dict cacheVal with
          | .error e => (.error e, src_dict)
          | .ok cache =>
            (.ok { construct input_ output reasoning cache with additional_properties := d },
             src_dict)

/-- `additional_keys` property. -/
def additional_keys (r : AssistantMessageTokens) : List String :=
  r.additional_properties.keys

/-- `__getitem__`: `KeyError` (here `none`) when the key is absent. -/
def getItem (r : AssistantMessageTokens) (k : String) : Option Value :=
  r.additional_properties.lookup k

/-- `__setitem__`: always succeeds. -/
def setItem (r : AssistantMessageTokens) (k : String) (v : Value) : AssistantMessageTokens :=
  { r with additional_properties := r.additional_properties.setItem k v }

/-- `__delitem__`: `KeyError` (here `none`) when the key is absent. -/
def delItem (r : AssistantMessageTokens) (k : String) : Option AssistantMessageTokens :=
  (r.additional_properties.delItem k).map
    (fun d => { r with additional_properties := d })

/-- `__contains__`. -/
def hasKey (r : AssistantMessageTokens) (k : String) : Bool :=
  r.additional_properties.hasKey k

end AssistantMessageTokens

/-- `class EventMessageUpdated` (event_message_updated.py): named fields
`type_` (a `Literal` tag) and `properties`, plus the extension bag. -/
structure EventMessageUpdated where
  type_ : Value
  properties : EventMessageUpdatedProperties
  additional_properties : Dict

namespace EventMessageUpdated

/-- The attrs-generated constructor: the bag starts empty. -/
def construct (type_ : Value) (properties : EventMessageUpdatedProperties) :
    EventMessageUpdated :=
  { type_ := type_, properties := properties, additional_properties := [] }

/-- `EventMessageUpdated.to_dict` (lines 26-40). -/
def to_dict (r : EventMessageUpdated) : Dict :=
  let field_dict : Dict := []
  let field_dict := field_dict.update r.additional_properties
  let field_dict := field_dict.update
    [("type", r.type_), ("properties", .vmap r.properties.to_dict)]
  field_dict

/-- `EventMessageUpdated.from_dict` (lines 42-59): copy the source map, pop
`"type"`, raise `ValueError` unless it equals the literal
`"message.updated"`, pop and recursively deserialize `"properties"`,
construct, then assign the remaining copy to the bag. -/
def from_dict (src_dict : Dict) : Except DErr EventMessageUpdated :=
  let d := Dict.copy src_dict
  match d.pop "type" with
  | none => .error (.keyError "type")
  | some (type_, d) =>
    if !(type_.eqStr "message.updated") then
      .error (.valueError "type must match const message.updated")
    else
      match d.pop "properties" with
      | none => .error (.keyError "properties")
      | some (propVal, d) =>
        match EventMessageUpdatedProperties.from_dict propVal with
        | .error e => .error e
        | .ok properties =>
          .ok { construct type_ properties with additional_properties := d }

/-- `from_dict` as a call: the same body, additionally returning the value of
the caller's map when the call returns (mutations target the local copy). -/
def from_dictCall (src_dict : Dict) : Except DErr EventMessageUpdated × Dict :=
  let d := Dict.copy src_dict
  match d.pop "type" with
  | none => (.error (.keyError "type"), src_dict)
  | some (type_, d) =>
    if !(type_.eqStr "message.updated") then
      (.error (.valueError "type must match const message.updated"), src_dict)
    else
      match d.pop "properties" with
      | none => (.error (.keyError "properties"), src_dict)
      | some (propVal, d) =>
        match EventMessageUpdatedProperties.from_dict propVal with
        | .error e => (.error e, src_dict)
        | .ok properties =>
          (.ok { construct type_ properties with additional_properties := d }, src_dict)

/-- `additional_keys` property. -/
def additional_keys (r : EventMessageUpdated) : List String :=
  r.additional_properties.keys

/-- `__getitem__`. -/
def getItem (r : EventMessageUpdated) (k : String) : Option Value :=
  r.additional_properties.lookup k

/-- `__setitem__`. -/
def setItem (r : EventMessageUpdated) (k : String) (v : Value) : EventMessageUpdated :=
  { r with additional_properties := r.additional_properties.setItem k v }

/-- `__delitem__`. -/
def delItem (r : EventMessageUpdated) (k : String) : Option EventMessageUpdated :=
  (r.additional_properties.delItem k).map
    (fun d => { r with additional_properties := d })

/-- `__contains__`. -/
def hasKey (r : EventMessageUpdated) (k : String) : Bool :=
  r.additional_properties.hasKey k

end EventMessageUpdated

/-- The named-field keys of `AssistantMessageTokens`, in `from_dict` pop
order. -/
def amtFieldKeys : List String := ["input", "output", "reasoning", "cache"]

/-- The named-field keys of `EventMessageUpdated`, in `from_dict` pop
order. -/
def emuFieldKeys : List String := ["type", "properties"]

namespace Dict

theorem copy_eq (d : Dict) : copy d = d := by
  induction d with
  | nil => rfl
  | cons kv rest ih => simp [copy, ih]

theorem hasKey_iff_mem {d : Dict} {k : String} : hasKey d k = true ↔ k ∈ keys d := by
  induction d with
  | nil => simp [hasKey, keys]
  | cons kv rest ih =>
    obtain ⟨k0, w⟩ := kv
    by_cases hk : k0 = k
    · subst hk; simp [hasKey, keys]
    · simp [hasKey, keys, hk, ih, Ne.symm hk]

theorem lookup_eq_none_iff {d : Dict} {k : String} :
    lookup d k = none ↔ hasKey d k = false := by
  induction d with
  | nil => simp [lookup, hasKey]
  | cons kv rest ih =>
    obtain ⟨k0, w⟩ := kv
    by_cases hk : k0 = k
    · simp [lookup, hasKey, hk]
    · simp [lookup, hasKey, hk, ih]

theorem pop_eq_none_iff {d : Dict} {k : String} :
    pop d k = none ↔ hasKey d k = false := by
  induction d with
  | nil => simp [pop, hasKey]
  | cons kv rest ih =>
    obtain ⟨k0, w⟩ := kv
    by_cases hk : k0 = k
    · simp [pop, hasKey, hk]
    · cases hp : pop rest k with
      | none => simp [pop, hasKey, hk, hp, ← ih]
      | some p =>
        obtain ⟨v2, rest2⟩ := p
        simp [pop, hasKey, hk, hp, ← ih]

theorem pop_lookup {d : Dict} {k : String} {v : Value} {d' : Dict}
    (h : pop d k = some (v, d')) : lookup d k = some v := by
  induction d generalizing d' with
  | nil => simp [pop] at h
  | cons kv rest ih =>
    obtain ⟨k0, w⟩ := kv
    by_cases hk : k0 = k
    · simp [pop, hk] at h
      simp [lookup, hk, h.1]
    · simp only [pop, if_neg hk] at h
      cases hp : pop rest k with
      | none => simp [hp] at h
      | some p =>
        obtain ⟨v2, rest2⟩ := p
        simp [hp] at h
        rw [h.1] at hp
        simp [lookup, hk, ih hp]

theorem pop_lookup_ne {d : Dict} {k k' : String} {v : Value} {d' : Dict}
    (h : pop d k = some (v, d')) (hne : k' ≠ k) : lookup d' k' = lookup d k' := by
  induction d generalizing d' with
  | nil => simp [pop] at h
  | cons kv rest ih =>
    obtain ⟨k0, w⟩ := kv
    by_cases hk : k0 = k
    · simp [pop, hk] at h
      have h0 : ¬ k0 = k' := by rw [hk]; exact fun he => hne he.symm
      rw [← h.2]
      simp [lookup, h0]
    · simp only [pop, if_neg hk] at h
      cases hp : pop rest k with
      | none => simp [hp] at h
      | some p =>
        obtain ⟨v2, rest2⟩ := p
        simp [hp] at h
        rw [h.1] at hp
        rw [← h.2]
        by_cases h0 : k0 = k'
        · simp [lookup, h0]
        · simp [lookup, h0, ih hp]

theorem pop_hasKey_false {d : Dict} {k k' : String} {v : Value} {d' : Dict}
    (h : pop d k = some (v, d')) (habs : hasKey d k' = false) :
    hasKey d' k' = false := by
  induction d generalizing d' with
  | nil => simp [pop] at h
  | cons kv rest ih =>
    obtain ⟨k0, w⟩ := kv
    simp only [hasKey, Bool.or_eq_false_iff, decide_eq_false_iff_not] at habs
    by_cases hk : k0 = k
    · simp [pop, hk] at h
      rw [← h.2]
      exact habs.2
    · simp only [pop, if_neg hk] at h
      cases hp : pop rest k with
      | none => simp [hp] at h
      | some p =>
        obtain ⟨v2, rest2⟩ := p
        simp [hp] at h
        rw [h.1] at hp
        rw [← h.2]
        simp [hasKey, habs.1, ih hp habs.2]

end Dict

namespace Dict

theorem pop_self_hasKey {d : Dict} {k : String} {v : Value} {d' : Dict}
    (hnd : (keys d).Nodup) (h : pop d k = some (v, d')) : hasKey d' k = false := by
  induction d generalizing d' with
  | nil => simp [pop] at h
  | cons kv rest ih =>
    obtain ⟨k0, w⟩ := kv
    simp only [keys, List.map_cons, List.nodup_cons] at hnd
    by_cases hk : k0 = k
    · simp [pop, hk] at h
      rw [← h.2]
      subst hk
      cases hr : hasKey rest k0 with
      | false => rfl
      | true => exact absurd (hasKey_iff_mem.mp hr) hnd.1
    · simp only [pop, if_neg hk] at h
      cases hp : pop rest k with
      | none => simp [hp] at h
      | some p =>
        obtain ⟨v2, rest2⟩ := p
        simp [hp] at h
        rw [h.1] at hp
        rw [← h.2]
        simp [hasKey, hk, ih hnd.2 hp]

theorem filter_ne_of_not_has {d : Dict} {k : String} (h : hasKey d k = false) :
    List.filter (fun kv => kv.1 != k) d = d := by
  induction d with
  | nil => rfl
  | cons kv rest ih =>
    obtain ⟨k0, w⟩ := kv
    simp only [hasKey, Bool.or_eq_false_iff, decide_eq_false_iff_not] at h
    simp [List.filter_cons, h.1, ih h.2]

theorem pop_eq_filter {d : Dict} {k : String} {v : Value} {d' : Dict}
    (hnd : (keys d).Nodup) (h : pop d k = some (v, d')) :
    d' = List.filter (fun kv => kv.1 != k) d := by
  induction d generalizing d' with
  | nil => simp [pop] at h
  | cons kv rest ih =>
    obtain ⟨k0, w⟩ := kv
    simp only [keys, List.map_cons, List.nodup_cons] at hnd
    by_cases hk : k0 = k
    · simp [pop, hk] at h
      subst hk
      have hr : hasKey rest k0 = false := by
        cases hr : hasKey rest k0 with
        | false => rfl
        | true => exact absurd (hasKey_iff_mem.mp hr) hnd.1
      simp [List.filter_cons, ← h.2, filter_ne_of_not_has hr]
    · simp only [pop, if_neg hk] at h
      cases hp : pop rest k with
      | none => simp [hp] at h
      | some p =>
        obtain ⟨v2, rest2⟩ := p
        simp [hp] at h
        rw [h.1] at hp
        simp [List.filter_cons, hk, ← h.2, ih hnd.2 hp]

theorem pop_keys_nodup {d : Dict} {k : String} {v : Value} {d' : Dict}
    (hnd : (keys d).Nodup) (h : pop d k = some (v, d')) : (keys d').Nodup := by
  rw [pop_eq_filter hnd h]
  exact List.Nodup.sublist ((List.filter_sublist d).map Prod.fst) hnd

theorem setItem_of_not_has {d : Dict} {k : String} {v : Value}
    (h : hasKey d k = false) : setItem d k v = d ++ [(k, v)] := by
  induction d with
  | nil => rfl
  | cons kv rest ih =>
    obtain ⟨k0, w⟩ := kv
    simp only [hasKey, Bool.or_eq_false_iff, decide_eq_false_iff_not] at h
    simp [setItem, h.1, ih h.2]

theorem hasKey_append {d e : Dict} {k : String} :
    hasKey (d ++ e) k = (hasKey d k || hasKey e k) := by
  induction d with
  | nil => simp [hasKey]
  | cons kv rest ih =>
    obtain ⟨k0, w⟩ := kv
    simp [hasKey, ih, Bool.or_assoc]

theorem update_append {m : Dict} :
    ∀ acc : Dict, (keys m).Nodup → (∀ k ∈ keys m, hasKey acc k = false) →
      update acc m = acc ++ m := by
  induction m with
  | nil => intro acc _ _; simp [update]
  | cons kv rest ih =>
    intro acc hnd hdisj
    obtain ⟨k0, w⟩ := kv
    simp only [keys, List.map_cons, List.nodup_cons] at hnd
    have h0 : hasKey acc k0 = false := hdisj k0 (by simp [keys])
    have step : update acc ((k0, w) :: rest) = update (acc ++ [(k0, w)]) rest := by
      simp [update, setItem_of_not_has h0]
    rw [step, ih (acc ++ [(k0, w)]) hnd.2]
    · simp
    · intro k hk
      have hne : ¬ k0 = k := fun he => hnd.1 (he ▸ hk)
      have : hasKey acc k = false :=
        hdisj k (by simp only [keys, List.map_cons]; exact List.mem_cons_of_mem _ hk)
      simp [hasKey_append, this, hasKey, hne]

theorem pop_append_of_not_has {d e : Dict} {k : String} (h : hasKey d k = false) :
    pop (d ++ e) k = (pop e k).map (fun p => (p.1, d ++ p.2)) := by
  induction d with
  | nil =>
    cases hp : pop e k with
    | none => simp [hp]
    | some p => simp [hp]
  | cons kv rest ih =>
    obtain ⟨k0, w⟩ := kv
    simp only [hasKey, Bool.or_eq_false_iff, decide_eq_false_iff_not] at h
    cases hp : pop e k with
    | none => simp [pop, h.1, ih h.2, hp]
    | some p =>
      obtain ⟨v2, e2⟩ := p
      simp [pop, h.1, ih h.2, hp]

theorem lookup_setItem {d : Dict} {k k' : String} {v : Value} :
    lookup (setItem d k v) k' = if k' = k then some v else lookup d k' := by
  induction d with
  | nil =>
    by_cases h : k' = k
    · simp [setItem, lookup, h]
    · simp [setItem, lookup, h, Ne.symm h]
  | cons kv rest ih =>
    obtain ⟨k0, w⟩ := kv
    by_cases h0 : k0 = k
    · subst h0
      by_cases h1 : k0 = k'
      · subst h1
        simp [setItem, lookup]
      · simp [setItem, lookup, h1, Ne.symm h1]
    · by_cases h1 : k0 = k'
      · have h2 : ¬ k' = k := fun he => h0 (h1.trans he)
        simp [setItem, lookup, h0, h1, h2]
      · simp [setItem, lookup, h0, h1, ih]

theorem hasKey_setItem {d : Dict} {k k' : String} {v : Value} :
    hasKey (setItem d k v) k' = (decide (k = k') || hasKey d k') := by
  induction d with
  | nil => simp [setItem, hasKey]
  | cons kv rest ih =>
    obtain ⟨k0, w⟩ := kv
    by_cases h0 : k0 = k
    · subst h0
      simp [setItem, hasKey]
    · simp [setItem, hasKey, h0, ih, Bool.or_left_comm]

theorem lookup_filter_of_keep {d : Dict} {p : String × Value → Bool} {k : String}
    (hp : ∀ v, p (k, v) = true) : lookup (List.filter p d) k = lookup d k := by
  induction d with
  | nil => simp [lookup]
  | cons kv rest ih =>
    obtain ⟨k0, w⟩ := kv
    by_cases hk : k0 = k
    · subst hk
      simp [List.filter_cons, hp w, lookup]
    · cases hw : p (k0, w) with
      | false => simp [List.filter_cons, hw, lookup, hk, ih]
      | true => simp [List.filter_cons, hw, lookup, hk, ih]

theorem lookup_filter_of_drop {d : Dict} {p : String × Value → Bool} {k : String}
    (hp : ∀ v, p (k, v) = false) : lookup (List.filter p d) k = none := by
  induction d with
  | nil => simp [lookup]
  | cons kv rest ih =>
    obtain ⟨k0, w⟩ := kv
    by_cases hk : k0 = k
    · subst hk
      simp [List.filter_cons, hp w, ih]
    · cases hw : p (k0, w) with
      | false => simp [List.filter_cons, hw, ih]
      | true => simp [List.filter_cons, hw, lookup, hk, ih]

end Dict

namespace AssistantMessageTokens

theorem to_dict_lookup_input (r : AssistantMessageTokens) :
    Dict.lookup r.to_dict "input" = some r.input_ := by
  simp [to_dict, Dict.update, Dict.lookup_setItem]

theorem to_dict_lookup_output (r : AssistantMessageTokens) :
    Dict.lookup r.to_dict "output" = some r.output := by
  simp [to_dict, Dict.update, Dict.lookup_setItem]

theorem to_dict_lookup_reasoning (r : AssistantMessageTokens) :
    Dict.lookup r.to_dict "reasoning" = some r.reasoning := by
  simp [to_dict, Dict.update, Dict.lookup_setItem]

theorem to_dict_lookup_cache (r : AssistantMessageTokens) :
    Dict.lookup r.to_dict "cache" = some (.vmap r.cache.to_dict) := by
  simp [to_dict, Dict.update, Dict.lookup_setItem]

theorem to_dict_lookup_unnamed_amt (r : AssistantMessageTokens) (k : String)
    (h1 : k ≠ "input") (h2 : k ≠ "output") (h3 : k ≠ "reasoning") (h4 : k ≠ "cache") :
    Dict.lookup r.to_dict k = Dict.lookup (Dict.update [] r.additional_properties) k := by
  simp [to_dict, Dict.update, Dict.lookup_setItem, h1, h2, h3, h4]

end AssistantMessageTokens

namespace EventMessageUpdated

theorem to_dict_lookup_type (r : EventMessageUpdated) :
    Dict.lookup r.to_dict "type" = some r.type_ := by
  simp [to_dict, Dict.update, Dict.lookup_setItem]

theorem to_dict_lookup_properties (r : EventMessageUpdated) :
    Dict.lookup r.to_dict "properties" = some (.vmap r.properties.to_dict) := by
  simp [to_dict, Dict.update, Dict.lookup_setItem]

theorem to_dict_lookup_unnamed_emu (r : EventMessageUpdated) (k : String)
    (h1 : k ≠ "type") (h2 : k ≠ "properties") :
    Dict.lookup r.to_dict k = Dict.lookup (Dict.update [] r.additional_properties) k := by
  simp [to_dict, Dict.update, Dict.lookup_setItem, h1, h2]

end EventMessageUpdated

/-- C3: serialization always emits the named field's serialized value under
each named-field key, even when the extension bag holds an entry of the same
name: the final `update` with the named fields overwrites any bag entry. -/
theorem C3_named_fields_win_over_bag :
    (∀ r : AssistantMessageTokens,
      Dict.lookup r.to_dict "input" = some r.input_ ∧
      Dict.lookup r.to_dict "output" = some r.output ∧
      Dict.lookup r.to_dict "reasoning" = some r.reasoning ∧
      Dict.lookup r.to_dict "cache" = some (.vmap r.cache.to_dict)) ∧
    (∀ r : EventMessageUpdated,
      Dict.lookup r.to_dict "type" = some r.type_ ∧
      Dict.lookup r.to_dict "properties" = some (.vmap r.properties.to_dict)) :=
  ⟨fun r => ⟨r.to_dict_lookup_input, r.to_dict_lookup_output,
    r.to_dict_lookup_reasoning, r.to_dict_lookup_cache⟩,
   fun r => ⟨r.to_dict_lookup_type, r.to_dict_lookup_properties⟩⟩

/-- C9: direct construction is total, stores the given named-field values
unchanged, and starts with an empty extension bag. -/
theorem C9_construct_total_empty_bag :
    (∀ (i o rs : Value) (c : AssistantMessageTokensCache),
      (AssistantMessageTokens.construct i o rs c).additional_properties = [] ∧
      (AssistantMessageTokens.construct i o rs c).input_ = i ∧
      (AssistantMessageTokens.construct i o rs c).output = o ∧
      (AssistantMessageTokens.construct i o rs c).reasoning = rs ∧
      (AssistantMessageTokens.construct i o rs c).cache = c) ∧
    (∀ (t : Value) (p : EventMessageUpdatedProperties),
      (EventMessageUpdated.construct t p).additional_properties = [] ∧
      (EventMessageUpdated.construct t p).type_ = t ∧
      (EventMessageUpdated.construct t p).properties = p) :=
  ⟨fun i o rs c => ⟨rfl, rfl, rfl, rfl, rfl⟩, fun t p => ⟨rfl, rfl, rfl⟩⟩

/-- C5: a `from_dict` call never changes the caller's map: every mutation in
the body targets the private copy `d = dict(src_dict)`, so on every path
(success or failure) the source map still holds its original entries. -/
theorem C5_from_dict_preserves_caller_map :
    ∀ src : Dict,
      (AssistantMessageTokens.from_dictCall src).2 = src ∧
      (AssistantMessageTokens.from_dictCall src).1 = AssistantMessageTokens.from_dict src ∧
      (EventMessageUpdated.from_dictCall src).2 = src ∧
      (EventMessageUpdated.from_dictCall src).1 = EventMessageUpdated.from_dict src := by
  intro src
  refine ⟨?_, ?_, ?_, ?_⟩ <;>
    simp only [AssistantMessageTokens.from_dictCall, AssistantMessageTokens.from_dict,
      EventMessageUpdated.from_dictCall, EventMessageUpdated.from_dict] <;>
    (repeat' split) <;> simp_all

theorem AssistantMessageTokens.from_dict_ok_inv_amt {src : Dict} {r : AssistantMessageTokens}
    (h : AssistantMessageTokens.from_dict src = .ok r) :
    ∃ d1 d2 d3 : Dict,
      Dict.pop src "input" = some (r.input_, d1) ∧
      Dict.pop d1 "output" = some (r.output, d2) ∧
      Dict.pop d2 "reasoning" = some (r.reasoning, d3) ∧
      Dict.pop d3 "cache"
        = some (.vmap r.cache.additional_properties, r.additional_properties) := by
  simp only [from_dict, Dict.copy_eq] at h
  cases h1 : Dict.pop src "input" with
  | none => rw [h1] at h; exact absurd h (by simp)
  | some p1 =>
    obtain ⟨i, d1⟩ := p1
    rw [h1] at h
    dsimp only [] at h
    cases h2 : Dict.pop d1 "output" with
    | none => rw [h2] at h; exact absurd h (by simp)
    | some p2 =>
      obtain ⟨o, d2⟩ := p2
      rw [h2] at h
      dsimp only [] at h
      cases h3 : Dict.pop d2 "reasoning" with
      | none => rw [h3] at h; exact absurd h (by simp)
      | some p3 =>
        obtain ⟨rs, d3⟩ := p3
        rw [h3] at h
        dsimp only [] at h
        cases h4 : Dict.pop d3 "cache" with
        | none => rw [h4] at h; exact absurd h (by simp)
        | some p4 =>
          obtain ⟨cv, d4⟩ := p4
          rw [h4] at h
          dsimp only [] at h
          cases cv with
          | num n => exact absurd h (by simp [AssistantMessageTokensCache.from_dict])
          | str s => exact absurd h (by simp [AssistantMessageTokensCache.from_dict])
          | vmap m =>
            simp only [AssistantMessageTokensCache.from_dict, Dict.copy_eq] at h
            have hr : r = { construct i o rs ⟨m⟩ with additional_properties := d4 } := by
              cases h; rfl
            subst hr
            refine ⟨d1, d2, d3, ?_, ?_, ?_, ?_⟩ <;> simp [construct, h1, h2, h3, h4]

theorem EventMessageUpdated.from_dict_ok_inv_emu {src : Dict} {r : EventMessageUpdated}
    (h : EventMessageUpdated.from_dict src = .ok r) :
    ∃ d1 : Dict,
      Dict.pop src "type" = some (r.type_, d1) ∧
      r.type_.eqStr "message.updated" = true ∧
      Dict.pop d1 "properties"
        = some (.vmap r.properties.additional_properties, r.additional_properties) := by
  simp only [from_dict, Dict.copy_eq] at h
  cases h1 : Dict.pop src "type" with
  | none => rw [h1] at h; exact absurd h (by simp)
  | some p1 =>
    obtain ⟨tv, d1⟩ := p1
    rw [h1] at h
    dsimp only [] at h
    cases htag : tv.eqStr "message.updated" with
    | false => rw [htag] at h; exact absurd h (by simp)
    | true =>
      rw [htag] at h
      simp only [Bool.not_true, Bool.false_eq_true, if_false] at h
      cases h2 : Dict.pop d1 "properties" with
      | none => rw [h2] at h; exact absurd h (by simp)
      | some p2 =>
        obtain ⟨pv, d2⟩ := p2
        rw [h2] at h
        dsimp only [] at h
        cases pv with
        | num n => exact absurd h (by simp [EventMessageUpdatedProperties.from_dict])
        | str s => exact absurd h (by simp [EventMessageUpdatedProperties.from_dict])
        | vmap m =>
          simp only [EventMessageUpdatedProperties.from_dict, Dict.copy_eq] at h
          have hr : r = { construct tv ⟨m⟩ with additional_properties := d2 } := by
            cases h; rfl
          subst hr
          refine ⟨d1, ?_, ?_, ?_⟩ <;> simp [construct, h1, htag, h2]

theorem Dict.pop_hasKey_ne {d : Dict} {k k' : String} {v : Value} {d' : Dict}
    (h : Dict.pop d k = some (v, d')) (hne : k' ≠ k) :
    Dict.hasKey d' k' = Dict.hasKey d k' := by
  have hl := Dict.pop_lookup_ne h hne
  cases hd : Dict.hasKey d k' with
  | false =>
    have h0 := Dict.lookup_eq_none_iff.mpr hd
    rw [← hl] at h0
    exact Dict.lookup_eq_none_iff.mp h0
  | true =>
    cases hd' : Dict.hasKey d' k' with
    | true => rfl
    | false =>
      have h0 := Dict.lookup_eq_none_iff.mpr hd'
      rw [hl] at h0
      rw [Dict.lookup_eq_none_iff.mp h0] at hd
      exact hd

namespace AssistantMessageTokens

theorem from_dict_err_input {d : Dict} (h : Dict.pop d "input" = none) :
    from_dict d = .error (.keyError "input") := by
  simp [from_dict, Dict.copy_eq, h]

theorem from_dict_err_output {d d1 : Dict} {i : Value}
    (h1 : Dict.pop d "input" = some (i, d1)) (h2 : Dict.pop d1 "output" = none) :
    from_dict d = .error (.keyError "output") := by
  simp [from_dict, Dict.copy_eq, h1, h2]

theorem from_dict_err_reasoning {d d1 d2 : Dict} {i o : Value}
    (h1 : Dict.pop d "input" = some (i, d1)) (h2 : Dict.pop d1 "output" = some (o, d2))
    (h3 : Dict.pop d2 "reasoning" = none) :
    from_dict d = .error (.keyError "reasoning") := by
  simp [from_dict, Dict.copy_eq, h1, h2, h3]

theorem from_dict_err_cache {d d1 d2 d3 : Dict} {i o rs : Value}
    (h1 : Dict.pop d "input" = some (i, d1)) (h2 : Dict.pop d1 "output" = some (o, d2))
    (h3 : Dict.pop d2 "reasoning" = some (rs, d3)) (h4 : Dict.pop d3 "cache" = none) :
    from_dict d = .error (.keyError "cache") := by
  simp [from_dict, Dict.copy_eq, h1, h2, h3, h4]

end AssistantMessageTokens

namespace EventMessageUpdated

theorem from_dict_err_type {d : Dict} (h : Dict.pop d "type" = none) :
    from_dict d = .error (.keyError "type") := by
  simp [from_dict, Dict.copy_eq, h]

theorem from_dict_err_tag {d d' : Dict} {v : Value}
    (h : Dict.pop d "type" = some (v, d')) (hv : v.eqStr "message.updated" = false) :
    from_dict d = .error (.valueError "type must match const message.updated") := by
  simp [from_dict, Dict.copy_eq, h, hv]

theorem from_dict_err_props {d d' : Dict} {v : Value}
    (h : Dict.pop d "type" = some (v, d')) (hv : v.eqStr "message.updated" = true)
    (hp : Dict.pop d' "properties" = none) :
    from_dict d = .error (.keyError "properties") := by
  simp [from_dict, Dict.copy_eq, h, hv, hp]

theorem from_dict_eval_props {d d' d2 : Dict} {v pv : Value}
    (h : Dict.pop d "type" = some (v, d')) (hv : v.eqStr "message.updated" = true)
    (hp : Dict.pop d' "properties" = some (pv, d2)) :
    from_dict d =
      match EventMessageUpdatedProperties.from_dict pv with
      | .error e => .error e
      | .ok properties => .ok { construct v properties with additional_properties := d2 } := by
  simp [from_dict, Dict.copy_eq, h, hv, hp]

end EventMessageUpdated

/-- C2: `EventMessageUpdated.from_dict` fails with the tag-mismatch
`ValueError` (constructing no record) whenever the value stored under
`"type"` is a string other than the literal `"message.updated"`; when it
equals the literal, the tag check passes (no tag-mismatch error can be the
outcome). -/
theorem C2_tag_enforcement :
    ∀ (d d' : Dict) (s : String), Dict.pop d "type" = some (Value.str s, d') →
      ((s ≠ "message.updated" →
        EventMessageUpdated.from_dict d
          = .error (.valueError "type must match const message.updated")) ∧
       (s = "message.updated" →
        ∀ e, EventMessageUpdated.from_dict d = .error e →
          ∀ msg, e ≠ DErr.valueError msg)) := by
  intro d d' s hpop
  constructor
  · intro hne
    exact EventMessageUpdated.from_dict_err_tag hpop (by simp [Value.eqStr, hne])
  · intro heq e hcall msg
    subst heq
    have htag : (Value.str "message.updated").eqStr "message.updated" = true := by
      simp [Value.eqStr]
    cases hp : Dict.pop d' "properties" with
    | none =>
      rw [EventMessageUpdated.from_dict_err_props hpop htag hp] at hcall
      cases hcall
      simp
    | some p =>
      obtain ⟨pv, d2⟩ := p
      rw [EventMessageUpdated.from_dict_eval_props hpop htag hp] at hcall
      cases pv with
      | num n => cases hcall; simp [EventMessageUpdatedProperties.from_dict]
      | str s2 => cases hcall; simp [EventMessageUpdatedProperties.from_dict]
      | vmap m => simp [EventMessageUpdatedProperties.from_dict] at hcall

/-- Witness for C2 at concrete inputs: a wrong string tag yields the
tag-mismatch error; with the correct tag the failure (here: missing
`"properties"`) is not a tag-mismatch error. -/
theorem C2_tag_enforcement_witness :
    (EventMessageUpdated.from_dict [("type", Value.str "wrong.value")]
      = .error (.valueError "type must match const message.updated")) ∧
    DErr.keyError "properties" ≠ DErr.valueError "type must match const message.updated" :=
  ⟨(C2_tag_enforcement [("type", Value.str "wrong.value")] [] "wrong.value" rfl).1
      (by decide),
   (C2_tag_enforcement [("type", Value.str "message.updated")] [] "message.updated" rfl).2
      rfl (DErr.keyError "properties") rfl "type must match const message.updated"⟩

/-- C10: in `EventMessageUpdated.from_dict` the tag is popped and validated
before `"properties"` is touched: any present-but-mismatching `"type"` value
(string or not) yields the tag-mismatch error with no condition on
`"properties"`, and an absent `"type"` key yields the `KeyError` for
`"type"`, not a tag-mismatch error. -/
theorem C10_tag_before_properties :
    ∀ d : Dict,
      ((∀ (v : Value) (d' : Dict), Dict.pop d "type" = some (v, d') →
         v.eqStr "message.updated" = false →
         EventMessageUpdated.from_dict d
           = .error (.valueError "type must match const message.updated")) ∧
       (Dict.pop d "type" = none →
        EventMessageUpdated.from_dict d = .error (.keyError "type"))) := by
  intro d
  exact ⟨fun v d' hpop hv => EventMessageUpdated.from_dict_err_tag hpop hv,
         fun hnone => EventMessageUpdated.from_dict_err_type hnone⟩

/-- Witness for C10 at concrete inputs: a map with a mismatching `"type"`
and no `"properties"` key still gets the tag-mismatch error; a map without
`"type"` gets the missing-key error for `"type"`. -/
theorem C10_tag_before_properties_witness :
    (EventMessageUpdated.from_dict [("type", Value.num 3)]
      = .error (.valueError "type must match const message.updated")) ∧
    (EventMessageUpdated.from_dict [("other", Value.num 1)]
      = .error (.keyError "type")) :=
  ⟨(C10_tag_before_properties [("type", Value.num 3)]).1 (Value.num 3) [] rfl rfl,
   (C10_tag_before_properties [("other", Value.num 1)]).2 rfl⟩

/-- The extension bag of an `AssistantMessageTokens` holds no named-field
key. -/
def AssistantMessageTokens.bagDisjoint (r : AssistantMessageTokens) : Bool :=
  amtFieldKeys.all (fun k => !(Dict.hasKey r.additional_properties k))

/-- The extension bag of an `EventMessageUpdated` holds no named-field
key. -/
def EventMessageUpdated.bagDisjoint (r : EventMessageUpdated) : Bool :=
  emuFieldKeys.all (fun k => !(Dict.hasKey r.additional_properties k))

/-- C7 counterexample: the public bag setter `__setitem__` accepts named-field
keys, so a record reachable through construction followed by a bag set under
the key `"input"` has that named-field key in its extension bag, refuting
the claimed invariant. -/
theorem C7_counterexample :
    ((AssistantMessageTokens.construct (.num 0) (.num 0) (.num 0) ⟨[]⟩).setItem
        "input" (.num 1)).hasKey "input" = true := rfl

/-- C7 amended: the disjointness invariant holds for records produced by
construction or by a successful `from_dict` of a map with pairwise-distinct
keys, and it is preserved by bag set under a non-named key and by bag
delete; it is not preserved by bag set under a named-field key. -/
theorem C7_amended_disjoint_invariant :
    (∀ (i o rs : Value) (c : AssistantMessageTokensCache),
      (AssistantMessageTokens.construct i o rs c).bagDisjoint = true) ∧
    (∀ (d : Dict) (r : AssistantMessageTokens), (Dict.keys d).Nodup →
      AssistantMessageTokens.from_dict d = .ok r → r.bagDisjoint = true) ∧
    (∀ (r : AssistantMessageTokens) (k : String) (v : Value),
      r.bagDisjoint = true → amtFieldKeys.contains k = false →
      (r.setItem k v).bagDisjoint = true) ∧
    (∀ (r r' : AssistantMessageTokens) (k : String),
      r.bagDisjoint = true → r.delItem k = some r' → r'.bagDisjoint = true) ∧
    (∀ (t : Value) (p : EventMessageUpdatedProperties),
      (EventMessageUpdated.construct t p).bagDisjoint = true) ∧
    (∀ (d : Dict) (r : EventMessageUpdated), (Dict.keys d).Nodup →
      EventMessageUpdated.from_dict d = .ok r → r.bagDisjoint = true) ∧
    (∀ (r : EventMessageUpdated) (k : String) (v : Value),
      r.bagDisjoint = true → emuFieldKeys.contains k = false →
      (r.setItem k v).bagDisjoint = true) ∧
    (∀ (r r' : EventMessageUpdated) (k : String),
      r.bagDisjoint = true → r.delItem k = some r' → r'.bagDisjoint = true) := by
  refine ⟨fun i o rs c => rfl, ?_, ?_, ?_, fun t p => rfl, ?_, ?_, ?_⟩
  · intro d r hnd hok
    obtain ⟨d1, d2, d3, h1, h2, h3, h4⟩ := AssistantMessageTokens.from_dict_ok_inv_amt hok
    have nd1 := Dict.pop_keys_nodup hnd h1
    have nd2 := Dict.pop_keys_nodup nd1 h2
    have nd3 := Dict.pop_keys_nodup nd2 h3
    have hi : Dict.hasKey r.additional_properties "input" = false :=
      Dict.pop_hasKey_false h4 (Dict.pop_hasKey_false h3
        (Dict.pop_hasKey_false h2 (Dict.pop_self_hasKey hnd h1)))
    have ho : Dict.hasKey r.additional_properties "output" = false :=
      Dict.pop_hasKey_false h4 (Dict.pop_hasKey_false h3 (Dict.pop_self_hasKey nd1 h2))
    have hre : Dict.hasKey r.additional_properties "reasoning" = false :=
      Dict.pop_hasKey_false h4 (Dict.pop_self_hasKey nd2 h3)
    have hc : Dict.hasKey r.additional_properties "cache" = false :=
      Dict.pop_self_hasKey nd3 h4
    simp [AssistantMessageTokens.bagDisjoint, amtFieldKeys, hi, ho, hre, hc]
  · intro r k v hr hk
    simp only [amtFieldKeys, List.contains_cons, List.contains_nil, Bool.or_eq_false_iff,
      beq_eq_false_iff_ne, ne_eq] at hk
    simp only [AssistantMessageTokens.bagDisjoint, amtFieldKeys, List.all_cons, List.all_nil,
      Bool.and_eq_true, Bool.not_eq_eq_eq_not, Bool.not_true] at hr ⊢
    simp only [AssistantMessageTokens.setItem, Dict.hasKey_setItem]
    have k1 : ¬ k = "input" := hk.1
    have k2 : ¬ k = "output" := hk.2.1
    have k3 : ¬ k = "reasoning" := hk.2.2.1
    have k4 : ¬ k = "cache" := hk.2.2.2.1
    simp [hr.1, hr.2.1, hr.2.2.1, hr.2.2.2.1, k1, k2, k3, k4]
  · intro r r' k hr hdel
    simp only [AssistantMessageTokens.delItem, Dict.delItem] at hdel
    cases hp : Dict.pop r.additional_properties k with
    | none => rw [hp] at hdel; simp at hdel
    | some p =>
      obtain ⟨v0, d0⟩ := p
      rw [hp] at hdel
      simp only [Option.map_some'] at hdel
      cases hdel
      simp only [AssistantMessageTokens.bagDisjoint, amtFieldKeys, List.all_cons, List.all_nil,
        Bool.and_eq_true, Bool.not_eq_eq_eq_not, Bool.not_true] at hr ⊢
      exact ⟨Dict.pop_hasKey_false hp hr.1, Dict.pop_hasKey_false hp hr.2.1,
        Dict.pop_hasKey_false hp hr.2.2.1, Dict.pop_hasKey_false hp hr.2.2.2.1, trivial⟩
  · intro d r hnd hok
    obtain ⟨d1, h1, htag, h2⟩ := EventMessageUpdated.from_dict_ok_inv_emu hok
    have nd1 := Dict.pop_keys_nodup hnd h1
    have ht : Dict.hasKey r.additional_properties "type" = false :=
      Dict.pop_hasKey_false h2 (Dict.pop_self_hasKey hnd h1)
    have hpr : Dict.hasKey r.additional_properties "properties" = false :=
      Dict.pop_self_hasKey nd1 h2
    simp [EventMessageUpdated.bagDisjoint, emuFieldKeys, ht, hpr]
  · intro r k v hr hk
    simp only [emuFieldKeys, List.contains_cons, List.contains_nil, Bool.or_eq_false_iff,
      beq_eq_false_iff_ne, ne_eq] at hk
    simp only [EventMessageUpdated.bagDisjoint, emuFieldKeys, List.all_cons, List.all_nil,
      Bool.and_eq_true, Bool.not_eq_eq_eq_not, Bool.not_true] at hr ⊢
    simp only [EventMessageUpdated.setItem, Dict.hasKey_setItem]
    simp [hr.1, hr.2.1, hk.1, hk.2.1]
  · intro r r' k hr hdel
    simp only [EventMessageUpdated.delItem, Dict.delItem] at hdel
    cases hp : Dict.pop r.additional_properties k with
    | none => rw [hp] at hdel; simp at hdel
    | some p =>
      obtain ⟨v0, d0⟩ := p
      rw [hp] at hdel
      simp only [Option.map_some'] at hdel
      cases hdel
      simp only [EventMessageUpdated.bagDisjoint, emuFieldKeys, List.all_cons, List.all_nil,
        Bool.and_eq_true, Bool.not_eq_eq_eq_not, Bool.not_true] at hr ⊢
      exact ⟨Dict.pop_hasKey_false hp hr.1, Dict.pop_hasKey_false hp hr.2.1, trivial⟩

/-- Witness for the amended C7 at concrete inputs: a successful `from_dict`
with an unknown key, a bag set under a non-named key, and a bag delete all
yield records whose bags avoid the named-field keys. -/
theorem C7_amended_disjoint_invariant_witness :
    (AssistantMessageTokens.from_dict
        [("input", .num 1), ("output", .num 2), ("reasoning", .num 3),
         ("cache", .vmap []), ("x", .num 9)]
      = .ok ⟨.num 1, .num 2, .num 3, ⟨[]⟩, [("x", .num 9)]⟩) ∧
    (AssistantMessageTokens.mk (.num 1) (.num 2) (.num 3) ⟨[]⟩
        [("x", .num 9)]).bagDisjoint = true := by
  have hok : AssistantMessageTokens.from_dict
      [("input", .num 1), ("output", .num 2), ("reasoning", .num 3),
       ("cache", .vmap []), ("x", .num 9)]
      = .ok ⟨.num 1, .num 2, .num 3, ⟨[]⟩, [("x", .num 9)]⟩ := rfl
  exact ⟨hok, C7_amended_disjoint_invariant.2.1 _ _ (by decide) hok⟩

/-- C4 counterexample: on the map with `"type"` present but mismatching and
the required key `"properties"` absent, `EventMessageUpdated.from_dict`
fails with the tag-mismatch `ValueError`, not with the propagated missing-key
failure the claim predicts for every map missing a required key. -/
theorem C4_counterexample :
    Dict.hasKey [("type", Value.str "x")] "properties" = false ∧
    EventMessageUpdated.from_dict [("type", Value.str "x")]
      = .error (.valueError "type must match const message.updated") := ⟨rfl, rfl⟩

/-- C4 amended: a missing required key yields the propagated `KeyError` of an
absent key, except that in `EventMessageUpdated.from_dict` the tag check runs
right after the `"type"` pop, so with `"type"` present but mismatching the
tag-mismatch error wins even when `"properties"` is absent. -/
theorem C4_amended_missing_field :
    (∀ d : Dict,
      (Dict.hasKey d "input" = false ∨ Dict.hasKey d "output" = false ∨
       Dict.hasKey d "reasoning" = false ∨ Dict.hasKey d "cache" = false) →
      ∃ k, AssistantMessageTokens.from_dict d = .error (.keyError k) ∧
        Dict.hasKey d k = false) ∧
    (∀ d : Dict, Dict.hasKey d "type" = false →
      EventMessageUpdated.from_dict d = .error (.keyError "type")) ∧
    (∀ (d d' : Dict) (v : Value), Dict.pop d "type" = some (v, d') →
      v.eqStr "message.updated" = true → Dict.hasKey d "properties" = false →
      EventMessageUpdated.from_dict d = .error (.keyError "properties")) ∧
    (∀ (d d' : Dict) (v : Value), Dict.pop d "type" = some (v, d') →
      v.eqStr "message.updated" = false →
      EventMessageUpdated.from_dict d
        = .error (.valueError "type must match const message.updated")) := by
  refine ⟨?_, ?_, ?_, ?_⟩
  · intro d hmiss
    cases h1 : Dict.pop d "input" with
    | none =>
      exact ⟨"input", AssistantMessageTokens.from_dict_err_input h1,
        Dict.pop_eq_none_iff.mp h1⟩
    | some p1 =>
      obtain ⟨i, d1⟩ := p1
      cases h2 : Dict.pop d1 "output" with
      | none =>
        refine ⟨"output", AssistantMessageTokens.from_dict_err_output h1 h2, ?_⟩
        rw [← Dict.pop_hasKey_ne h1 (by decide)]
        exact Dict.pop_eq_none_iff.mp h2
      | some p2 =>
        obtain ⟨o, d2⟩ := p2
        cases h3 : Dict.pop d2 "reasoning" with
        | none =>
          refine ⟨"reasoning", AssistantMessageTokens.from_dict_err_reasoning h1 h2 h3, ?_⟩
          rw [← Dict.pop_hasKey_ne h1 (by decide), ← Dict.pop_hasKey_ne h2 (by decide)]
          exact Dict.pop_eq_none_iff.mp h3
        | some p3 =>
          obtain ⟨rs, d3⟩ := p3
          cases h4 : Dict.pop d3 "cache" with
          | none =>
            refine ⟨"cache", AssistantMessageTokens.from_dict_err_cache h1 h2 h3 h4, ?_⟩
            rw [← Dict.pop_hasKey_ne h1 (by decide), ← Dict.pop_hasKey_ne h2 (by decide),
              ← Dict.pop_hasKey_ne h3 (by decide)]
            exact Dict.pop_eq_none_iff.mp h4
          | some p4 =>
            exfalso
            have kin : Dict.hasKey d "input" = true := by
              cases hx : Dict.hasKey d "input" with
              | true => rfl
              | false => rw [Dict.pop_eq_none_iff.mpr hx] at h1; cases h1
            have kout : Dict.hasKey d "output" = true := by
              cases hx : Dict.hasKey d1 "output" with
              | true => rw [← Dict.pop_hasKey_ne h1 (by decide)]; exact hx
              | false => rw [Dict.pop_eq_none_iff.mpr hx] at h2; cases h2
            have krs : Dict.hasKey d "reasoning" = true := by
              cases hx : Dict.hasKey d2 "reasoning" with
              | true =>
                rw [← Dict.pop_hasKey_ne h1 (by decide), ← Dict.pop_hasKey_ne h2 (by decide)]
                exact hx
              | false => rw [Dict.pop_eq_none_iff.mpr hx] at h3; cases h3
            have kc : Dict.hasKey d "cache" = true := by
              cases hx : Dict.hasKey d3 "cache" with
              | true =>
                rw [← Dict.pop_hasKey_ne h1 (by decide), ← Dict.pop_hasKey_ne h2 (by decide),
                  ← Dict.pop_hasKey_ne h3 (by decide)]
                exact hx
              | false => rw [Dict.pop_eq_none_iff.mpr hx] at h4; cases h4
            rcases hmiss with h | h | h | h <;> simp_all
  · intro d h
    exact EventMessageUpdated.from_dict_err_type (Dict.pop_eq_none_iff.mpr h)
  · intro d d' v hpop htag habs
    refine EventMessageUpdated.from_dict_err_props hpop htag ?_
    exact Dict.pop_eq_none_iff.mpr (Dict.pop_hasKey_false hpop habs)
  · intro d d' v hpop htag
    exact EventMessageUpdated.from_dict_err_tag hpop htag

/-- Witness for the amended C4 at concrete inputs: the token-usage map
missing `"input"` fails with its `KeyError`; the event map missing
`"properties"` (correct tag) fails with the `"properties"` `KeyError`; with
a wrong tag the tag-mismatch error wins. -/
theorem C4_amended_missing_field_witness :
    (∃ k, AssistantMessageTokens.from_dict
        [("output", .num 1), ("reasoning", .num 0), ("cache", .vmap [])]
        = .error (.keyError k) ∧
      Dict.hasKey [("output", Value.num 1), ("reasoning", Value.num 0),
        ("cache", Value.vmap [])] k = false) ∧
    (EventMessageUpdated.from_dict [("type", Value.str "message.updated")]
      = .error (.keyError "properties")) ∧
    (EventMessageUpdated.from_dict [("type", Value.num 7)]
      = .error (.valueError "type must match const message.updated")) :=
  ⟨C4_amended_missing_field.1
      [("output", .num 1), ("reasoning", .num 0), ("cache", .vmap [])]
      (Or.inl rfl),
   C4_amended_missing_field.2.2.1 [("type", Value.str "message.updated")] []
      (Value.str "message.updated") rfl rfl rfl,
   C4_amended_missing_field.2.2.2 [("type", Value.num 7)] [] (Value.num 7) rfl rfl⟩

theorem Dict.hasKey_true_iff_lookup {d : Dict} {k : String} :
    Dict.hasKey d k = true ↔ ∃ v, Dict.lookup d k = some v := by
  constructor
  · intro h
    cases hl : Dict.lookup d k with
    | none => rw [Dict.lookup_eq_none_iff.mp hl] at h; cases h
    | some w => exact ⟨w, rfl⟩
  · rintro ⟨v, hv⟩
    cases hx : Dict.hasKey d k with
    | true => rfl
    | false => rw [Dict.lookup_eq_none_iff.mpr hx] at hv; cases hv

/-- C8: the bag accessors have map semantics on every record: get fails
exactly on absent keys and returns the stored value otherwise; set always
succeeds, inserts or overwrites, and touches no other key; delete fails
exactly on absent keys and removes exactly the named entry (bag keys being
pairwise distinct) leaving the named fields untouched; contains is a total
boolean query answering true exactly when the key is in the bag. -/
theorem C8_bag_accessor_map_semantics :
    (∀ (r : AssistantMessageTokens) (k : String) (v : Value),
      (r.getItem k = none ↔ r.hasKey k = false) ∧
      (r.setItem k v).getItem k = some v ∧
      (∀ k', k' ≠ k → (r.setItem k v).getItem k' = r.getItem k') ∧
      (r.delItem k = none ↔ r.hasKey k = false) ∧
      ((Dict.keys r.additional_properties).Nodup →
        ∀ r', r.delItem k = some r' →
          r'.getItem k = none ∧
          (∀ k', k' ≠ k → r'.getItem k' = r.getItem k') ∧
          r'.input_ = r.input_ ∧ r'.output = r.output ∧
          r'.reasoning = r.reasoning ∧ r'.cache = r.cache) ∧
      (r.hasKey k = true ↔ ∃ v', r.getItem k = some v')) ∧
    (∀ (r : EventMessageUpdated) (k : String) (v : Value),
      (r.getItem k = none ↔ r.hasKey k = false) ∧
      (r.setItem k v).getItem k = some v ∧
      (∀ k', k' ≠ k → (r.setItem k v).getItem k' = r.getItem k') ∧
      (r.delItem k = none ↔ r.hasKey k = false) ∧
      ((Dict.keys r.additional_properties).Nodup →
        ∀ r', r.delItem k = some r' →
          r'.getItem k = none ∧
          (∀ k', k' ≠ k → r'.getItem k' = r.getItem k') ∧
          r'.type_ = r.type_ ∧ r'.properties = r.properties) ∧
      (r.hasKey k = true ↔ ∃ v', r.getItem k = some v')) := by
  constructor
  · intro r k v
    refine ⟨?_, ?_, ?_, ?_, ?_, ?_⟩
    · exact Dict.lookup_eq_none_iff
    · simp [AssistantMessageTokens.setItem, AssistantMessageTokens.getItem,
        Dict.lookup_setItem]
    · intro k' hne
      simp [AssistantMessageTokens.setItem, AssistantMessageTokens.getItem,
        Dict.lookup_setItem, hne]
    · simp [AssistantMessageTokens.delItem, Dict.delItem, AssistantMessageTokens.hasKey,
        Option.map_eq_none', Dict.pop_eq_none_iff]
    · intro hnd r' hdel
      simp only [AssistantMessageTokens.delItem, Dict.delItem] at hdel
      cases hp : Dict.pop r.additional_properties k with
      | none => rw [hp] at hdel; simp at hdel
      | some p =>
        obtain ⟨v0, d0⟩ := p
        rw [hp] at hdel
        simp only [Option.map_some'] at hdel
        cases hdel
        refine ⟨?_, ?_, rfl, rfl, rfl, rfl⟩
        · exact Dict.lookup_eq_none_iff.mpr (Dict.pop_self_hasKey hnd hp)
        · intro k' hne
          exact Dict.pop_lookup_ne hp hne
    · exact Dict.hasKey_true_iff_lookup
  · intro r k v
    refine ⟨?_, ?_, ?_, ?_, ?_, ?_⟩
    · exact Dict.lookup_eq_none_iff
    · simp [EventMessageUpdated.setItem, EventMessageUpdated.getItem, Dict.lookup_setItem]
    · intro k' hne
      simp [EventMessageUpdated.setItem, EventMessageUpdated.getItem,
        Dict.lookup_setItem, hne]
    · simp [EventMessageUpdated.delItem, Dict.delItem, EventMessageUpdated.hasKey,
        Option.map_eq_none', Dict.pop_eq_none_iff]
    · intro hnd r' hdel
      simp only [EventMessageUpdated.delItem, Dict.delItem] at hdel
      cases hp : Dict.pop r.additional_properties k with
      | none => rw [hp] at hdel; simp at hdel
      | some p =>
        obtain ⟨v0, d0⟩ := p
        rw [hp] at hdel
        simp only [Option.map_some'] at hdel
        cases hdel
        refine ⟨?_, ?_, rfl, rfl⟩
        · exact Dict.lookup_eq_none_iff.mpr (Dict.pop_self_hasKey hnd hp)
        · intro k' hne
          exact Dict.pop_lookup_ne hp hne
    · exact Dict.hasKey_true_iff_lookup

/-- Witness for C8 at concrete inputs: on a record with bag entry
`"a" := 5`, setting `"a"` does not disturb key `"b"`, and deleting `"a"`
(distinct bag keys) leaves a bag where `"a"` is absent. -/
theorem C8_bag_accessor_map_semantics_witness :
    ((AssistantMessageTokens.mk (.num 1) (.num 2) (.num 3) ⟨[]⟩
        [("a", .num 5)]).setItem "a" (.num 7)).getItem "b"
      = (AssistantMessageTokens.mk (.num 1) (.num 2) (.num 3) ⟨[]⟩
        [("a", .num 5)]).getItem "b" ∧
    (AssistantMessageTokens.mk (.num 1) (.num 2) (.num 3) ⟨[]⟩
        [("a", .num 5)] : AssistantMessageTokens).delItem "a"
      = some (AssistantMessageTokens.mk (.num 1) (.num 2) (.num 3) ⟨[]⟩ []) ∧
    (AssistantMessageTokens.mk (.num 1) (.num 2) (.num 3) ⟨[]⟩
        [] : AssistantMessageTokens).getItem "a" = none :=
  ⟨((C8_bag_accessor_map_semantics.1
      (AssistantMessageTokens.mk (.num 1) (.num 2) (.num 3) ⟨[]⟩ [("a", .num 5)])
      "a" (.num 7)).2.2.1 "b" (by decide)),
   rfl,
   (((C8_bag_accessor_map_semantics.1
      (AssistantMessageTokens.mk (.num 1) (.num 2) (.num 3) ⟨[]⟩ [("a", .num 5)])
      "a" (.num 7)).2.2.2.2.1 (by decide)
      (AssistantMessageTokens.mk (.num 1) (.num 2) (.num 3) ⟨[]⟩ []) rfl).1)⟩

theorem AssistantMessageTokens.to_dict_eq_append_amt {i o rs : Value}
    {c : AssistantMessageTokensCache} {bag : Dict}
    (hnd : (Dict.keys bag).Nodup)
    (hdisj : ∀ k0 ∈ amtFieldKeys, Dict.hasKey bag k0 = false) :
    (AssistantMessageTokens.mk i o rs c bag).to_dict
      = bag ++ [("input", i), ("output", o), ("reasoning", rs),
         ("cache", .vmap c.to_dict)] := by
  show Dict.update (Dict.update [] bag)
      [("input", i), ("output", o), ("reasoning", rs), ("cache", .vmap c.to_dict)] = _
  rw [Dict.update_append [] hnd (fun k _ => rfl), List.nil_append]
  refine Dict.update_append bag (by simp [Dict.keys]) ?_
  intro k hk
  simp only [Dict.keys, List.map_cons, List.map_nil, List.mem_cons, List.not_mem_nil,
    or_false] at hk
  rcases hk with rfl | rfl | rfl | rfl
  · exact hdisj "input" (by simp [amtFieldKeys])
  · exact hdisj "output" (by simp [amtFieldKeys])
  · exact hdisj "reasoning" (by simp [amtFieldKeys])
  · exact hdisj "cache" (by simp [amtFieldKeys])

theorem EventMessageUpdated.to_dict_eq_append_emu {t : Value}
    {p : EventMessageUpdatedProperties} {bag : Dict}
    (hnd : (Dict.keys bag).Nodup)
    (hdisj : ∀ k0 ∈ emuFieldKeys, Dict.hasKey bag k0 = false) :
    (EventMessageUpdated.mk t p bag).to_dict
      = bag ++ [("type", t), ("properties", .vmap p.to_dict)] := by
  show Dict.update (Dict.update [] bag) [("type", t), ("properties", .vmap p.to_dict)] = _
  rw [Dict.update_append [] hnd (fun k _ => rfl), List.nil_append]
  refine Dict.update_append bag (by simp [Dict.keys]) ?_
  intro k hk
  simp only [Dict.keys, List.map_cons, List.map_nil, List.mem_cons, List.not_mem_nil,
    or_false] at hk
  rcases hk with rfl | rfl
  · exact hdisj "type" (by simp [emuFieldKeys])
  · exact hdisj "properties" (by simp [emuFieldKeys])

/-- C1: serialize-then-deserialize is the identity on every record built from
named-field values and an extension bag whose (pairwise-distinct) keys avoid
the named-field keys, recursively through the nested record. -/
theorem C1_round_trip :
    (∀ (i o rs : Value) (c : AssistantMessageTokensCache) (bag : Dict),
      (Dict.keys bag).Nodup →
      (∀ k0 ∈ amtFieldKeys, Dict.hasKey bag k0 = false) →
      AssistantMessageTokens.from_dict (AssistantMessageTokens.mk i o rs c bag).to_dict
        = .ok (AssistantMessageTokens.mk i o rs c bag)) ∧
    (∀ (p : EventMessageUpdatedProperties) (bag : Dict),
      (Dict.keys bag).Nodup →
      (∀ k0 ∈ emuFieldKeys, Dict.hasKey bag k0 = false) →
      EventMessageUpdated.from_dict
          (EventMessageUpdated.mk (.str "message.updated") p bag).to_dict
        = .ok (EventMessageUpdated.mk (.str "message.updated") p bag)) := by
  constructor
  · intro i o rs c bag hnd hdisj
    rw [AssistantMessageTokens.to_dict_eq_append_amt hnd hdisj]
    simp only [AssistantMessageTokensCache.to_dict]
    have e1 : Dict.pop
        (bag ++ [("input", i), ("output", o), ("reasoning", rs),
          ("cache", .vmap c.additional_properties)]) "input"
        = some (i, bag ++ [("output", o), ("reasoning", rs),
            ("cache", .vmap c.additional_properties)]) := by
      rw [Dict.pop_append_of_not_has (hdisj "input" (by simp [amtFieldKeys]))]
      simp [Dict.pop]
    have e2 : Dict.pop
        (bag ++ [("output", o), ("reasoning", rs),
          ("cache", .vmap c.additional_properties)]) "output"
        = some (o, bag ++ [("reasoning", rs), ("cache", .vmap c.additional_properties)]) := by
      rw [Dict.pop_append_of_not_has (hdisj "output" (by simp [amtFieldKeys]))]
      simp [Dict.pop]
    have e3 : Dict.pop (bag ++ [("reasoning", rs),
          ("cache", .vmap c.additional_properties)]) "reasoning"
        = some (rs, bag ++ [("cache", .vmap c.additional_properties)]) := by
      rw [Dict.pop_append_of_not_has (hdisj "reasoning" (by simp [amtFieldKeys]))]
      simp [Dict.pop]
    have e4 : Dict.pop (bag ++ [("cache", .vmap c.additional_properties)]) "cache"
        = some (.vmap c.additional_properties, bag ++ []) := by
      rw [Dict.pop_append_of_not_has (hdisj "cache" (by simp [amtFieldKeys]))]
      simp [Dict.pop]
    simp [AssistantMessageTokens.from_dict, Dict.copy_eq, e1, e2, e3, e4,
      AssistantMessageTokensCache.from_dict, AssistantMessageTokens.construct]
  · intro p bag hnd hdisj
    rw [EventMessageUpdated.to_dict_eq_append_emu hnd hdisj]
    simp only [EventMessageUpdatedProperties.to_dict]
    have e1 : Dict.pop (bag ++ [("type", .str "message.updated"),
          ("properties", .vmap p.additional_properties)]) "type"
        = some (.str "message.updated",
            bag ++ [("properties", .vmap p.additional_properties)]) := by
      rw [Dict.pop_append_of_not_has (hdisj "type" (by simp [emuFieldKeys]))]
      simp [Dict.pop]
    have e2 : Dict.pop (bag ++ [("properties", .vmap p.additional_properties)]) "properties"
        = some (.vmap p.additional_properties, bag ++ []) := by
      rw [Dict.pop_append_of_not_has (hdisj "properties" (by simp [emuFieldKeys]))]
      simp [Dict.pop]
    simp [EventMessageUpdated.from_dict, Dict.copy_eq, e1, e2, Value.eqStr,
      EventMessageUpdatedProperties.from_dict, EventMessageUpdated.construct]

/-- Witness for C1 at concrete inputs: both round trips at records with
nonempty bags (and a nested bag in the cache). -/
theorem C1_round_trip_witness :
    (AssistantMessageTokens.from_dict
        (AssistantMessageTokens.mk (.num 1) (.num 2) (.num 3) ⟨[("cz", .num 0)]⟩
          [("extra", .num 42)]).to_dict
      = .ok (AssistantMessageTokens.mk (.num 1) (.num 2) (.num 3) ⟨[("cz", .num 0)]⟩
          [("extra", .num 42)])) ∧
    (EventMessageUpdated.from_dict
        (EventMessageUpdated.mk (.str "message.updated") ⟨[("pz", .num 7)]⟩
          [("extra", .num 42)]).to_dict
      = .ok (EventMessageUpdated.mk (.str "message.updated") ⟨[("pz", .num 7)]⟩
          [("extra", .num 42)])) :=
  ⟨C1_round_trip.1 (.num 1) (.num 2) (.num 3) ⟨[("cz", .num 0)]⟩ [("extra", .num 42)]
      (by decide) (by decide),
   C1_round_trip.2 ⟨[("pz", .num 7)]⟩ [("extra", .num 42)] (by decide) (by decide)⟩

/-- C6: on every successful deserialization of a map with pairwise-distinct
keys, the record's extension bag is exactly the input's entries under
non-named keys, verbatim, and re-serializing the record reproduces the
original map entry for entry (key order aside). -/
theorem C6_unknown_key_preservation :
    (∀ (src : Dict) (r : AssistantMessageTokens), (Dict.keys src).Nodup →
      AssistantMessageTokens.from_dict src = .ok r →
      r.additional_properties
        = src.filter (fun kv => amtFieldKeys.all (fun k0 => kv.1 != k0)) ∧
      ∀ k, Dict.lookup r.to_dict k = Dict.lookup src k) ∧
    (∀ (src : Dict) (r : EventMessageUpdated), (Dict.keys src).Nodup →
      EventMessageUpdated.from_dict src = .ok r →
      r.additional_properties
        = src.filter (fun kv => emuFieldKeys.all (fun k0 => kv.1 != k0)) ∧
      ∀ k, Dict.lookup r.to_dict k = Dict.lookup src k) := by
  constructor
  · intro src r hnd hok
    obtain ⟨d1, d2, d3, h1, h2, h3, h4⟩ := AssistantMessageTokens.from_dict_ok_inv_amt hok
    have nd1 := Dict.pop_keys_nodup hnd h1
    have nd2 := Dict.pop_keys_nodup nd1 h2
    have nd3 := Dict.pop_keys_nodup nd2 h3
    have ndb := Dict.pop_keys_nodup nd3 h4
    have f1 := Dict.pop_eq_filter hnd h1
    have f2 := Dict.pop_eq_filter nd1 h2
    have f3 := Dict.pop_eq_filter nd2 h3
    have f4 := Dict.pop_eq_filter nd3 h4
    have hbag : r.additional_properties
        = src.filter (fun kv => amtFieldKeys.all (fun k0 => kv.1 != k0)) := by
      rw [f4, f3, f2, f1, List.filter_filter, List.filter_filter, List.filter_filter]
      refine List.filter_congr ?_
      intro kv _
      simp [amtFieldKeys, Bool.and_comm, Bool.and_assoc, Bool.and_left_comm]
    refine ⟨hbag, ?_⟩
    intro k
    by_cases hk1 : k = "input"
    · subst hk1
      rw [AssistantMessageTokens.to_dict_lookup_input, Dict.pop_lookup h1]
    by_cases hk2 : k = "output"
    · subst hk2
      rw [AssistantMessageTokens.to_dict_lookup_output, ← Dict.pop_lookup_ne h1 (by decide),
        Dict.pop_lookup h2]
    by_cases hk3 : k = "reasoning"
    · subst hk3
      rw [AssistantMessageTokens.to_dict_lookup_reasoning,
        ← Dict.pop_lookup_ne h1 (by decide), ← Dict.pop_lookup_ne h2 (by decide),
        Dict.pop_lookup h3]
    by_cases hk4 : k = "cache"
    · subst hk4
      rw [AssistantMessageTokens.to_dict_lookup_cache, ← Dict.pop_lookup_ne h1 (by decide),
        ← Dict.pop_lookup_ne h2 (by decide), ← Dict.pop_lookup_ne h3 (by decide),
        Dict.pop_lookup h4]
      rfl
    · rw [AssistantMessageTokens.to_dict_lookup_unnamed_amt r k hk1 hk2 hk3 hk4,
        Dict.update_append [] ndb (fun _ _ => rfl), List.nil_append,
        f4, f3, f2, f1,
        Dict.lookup_filter_of_keep (fun v => by simp [hk4]),
        Dict.lookup_filter_of_keep (fun v => by simp [hk3]),
        Dict.lookup_filter_of_keep (fun v => by simp [hk2]),
        Dict.lookup_filter_of_keep (fun v => by simp [hk1])]
  · intro src r hnd hok
    obtain ⟨d1, h1, htag, h2⟩ := EventMessageUpdated.from_dict_ok_inv_emu hok
    have nd1 := Dict.pop_keys_nodup hnd h1
    have ndb := Dict.pop_keys_nodup nd1 h2
    have f1 := Dict.pop_eq_filter hnd h1
    have f2 := Dict.pop_eq_filter nd1 h2
    have hbag : r.additional_properties
        = src.filter (fun kv => emuFieldKeys.all (fun k0 => kv.1 != k0)) := by
      rw [f2, f1, List.filter_filter]
      refine List.filter_congr ?_
      intro kv _
      simp [emuFieldKeys, Bool.and_comm, Bool.and_assoc, Bool.and_left_comm]
    refine ⟨hbag, ?_⟩
    intro k
    by_cases hk1 : k = "type"
    · subst hk1
      rw [EventMessageUpdated.to_dict_lookup_type, Dict.pop_lookup h1]
    by_cases hk2 : k = "properties"
    · subst hk2
      rw [EventMessageUpdated.to_dict_lookup_properties, ← Dict.pop_lookup_ne h1 (by decide),
        Dict.pop_lookup h2]
      rfl
    · rw [EventMessageUpdated.to_dict_lookup_unnamed_emu r k hk1 hk2,
        Dict.update_append [] ndb (fun _ _ => rfl), List.nil_append,
        f2, f1,
        Dict.lookup_filter_of_keep (fun v => by simp [hk2]),
        Dict.lookup_filter_of_keep (fun v => by simp [hk1])]

/-- Witness for C6 at a concrete input (the spec's own example): deserializing
the event map with an extra key yields a bag holding exactly that key, and
re-serialization reproduces the original entries. -/
theorem C6_unknown_key_preservation_witness :
    (EventMessageUpdated.from_dict
        [("type", .str "message.updated"), ("properties", .vmap []), ("extra", .num 42)]
      = .ok (EventMessageUpdated.mk (.str "message.updated") ⟨[]⟩
          [("extra", .num 42)])) ∧
    ((EventMessageUpdated.mk (.str "message.updated") ⟨[]⟩
        [("extra", .num 42)]).additional_properties
      = List.filter
          (fun kv => emuFieldKeys.all (fun k0 => kv.1 != k0))
          [("type", .str "message.updated"), ("properties", .vmap []),
           ("extra", .num 42)]) ∧
    (Dict.lookup (EventMessageUpdated.mk (.str "message.updated") ⟨[]⟩
        [("extra", .num 42)]).to_dict "extra"
      = Dict.lookup [("type", Value.str "message.updated"), ("properties", Value.vmap []),
          ("extra", Value.num 42)] "extra") := by
  have hok : EventMessageUpdated.from_dict
      [("type", .str "message.updated"), ("properties", .vmap []), ("extra", .num 42)]
      = .ok (EventMessageUpdated.mk (.str "message.updated") ⟨[]⟩ [("extra", .num 42)]) := rfl
  exact ⟨hok,
    (C6_unknown_key_preservation.2 _ _ (by decide) hok).1,
    (C6_unknown_key_preservation.2 _ _ (by decide) hok).2 "extra"⟩
